import Mathlib

/-!
# Verification of the risk-scoring and tax-computation engine

Shallow embedding of the core computational modules of the repository
(`src/utils/tax.py` and `src/utils/scoring.py`) together with proofs of
the specified properties.

Modelling conventions:
* Python floats are modelled by `ℚ` where the source performs only
  field operations, `min`/`max` and comparisons (the tax module, the
  quantile/level logic), and by `ℝ` where the source uses `math.log` /
  `sqrt` (the ratio normalizer, CRITIC weights).
* A float `NaN` (missing value) is modelled by `none : Option _`;
  a present finite value by `some x`.
* A Python value that may fail `float(x)` conversion is modelled by
  `PyVal`: either a numeric payload or a non-numeric token; `_to_float`
  models the `try: float(x) except: default` coercion.
-/

namespace KLTN

/-- A Python value passed to a tax function: either numeric (coercible by
`float`) or non-numeric (raising in `float`, hence coerced to the default). -/
inductive PyVal where
  | num (x : ℚ)
  | nonNum
deriving DecidableEq, Repr

/-- Embeds `_to_float` from `src/utils/tax.py`: `float(x)` with fallback to
`default` when conversion raises. -/
def toFloat (x : PyVal) (default : ℚ := 0) : ℚ :=
  match x with
  | .num v => v
  | .nonNum => default

/-- Python `max(a, b)` on two comparable values (returns the first argument
on ties, indistinguishable from `max` on `ℚ`). -/
def pmax (a b : ℚ) : ℚ := if b ≤ a then a else b

/-- Python `min(a, b)` on two comparable values. -/
def pmin (a b : ℚ) : ℚ := if a ≤ b then a else b

@[simp] theorem pmax_eq_max (a b : ℚ) : pmax a b = max a b := by
  unfold pmax
  rcases le_total a b with h | h
  · rcases eq_or_lt_of_le h with rfl | hlt
    · simp
    · rw [if_neg (not_le.mpr hlt), max_eq_right h]
  · rw [if_pos h, max_eq_left h]

@[simp] theorem pmin_eq_min (a b : ℚ) : pmin a b = min a b := by
  unfold pmin
  rcases le_total a b with h | h
  · rw [if_pos h, min_eq_left h]
  · rcases eq_or_lt_of_le h with rfl | hlt
    · simp
    · rw [if_neg (not_le.mpr hlt), min_eq_right h]

/-- The `ReliefType` literal from `src/utils/tax.py`. -/
inductive ReliefType where
  | none
  | exempt_within_quota
  | reduce50_within_quota
  | exempt_all
  | reduce50_all
deriving DecidableEq, Repr

/-- Result record of `registration_fee_land_vnd`. -/
structure RegFeeResult where
  base_value_vnd : ℚ
  fee_vnd : ℚ
  rate : ℚ
  exempt : Bool
deriving DecidableEq, Repr

/-- Embeds `registration_fee_land_vnd` from `src/utils/tax.py`:
`area = max(float(area_m2), 0)`, `gov = max(float(gov_price_mil_m2), 0)`,
`base = area * gov * 1e6`, `fee = 0 if exempt else base * float(rate)`. -/
def registration_fee_land_vnd (area_m2 gov_price_mil_m2 : PyVal)
    (rate : PyVal := .num (5 / 1000)) (exempt : Bool := false) : RegFeeResult :=
  let area := pmax (toFloat area_m2) 0
  let gov := pmax (toFloat gov_price_mil_m2) 0
  let base_value_vnd := area * gov * 1000000
  let fee_vnd := if exempt then 0 else base_value_vnd * toFloat rate
  { base_value_vnd := base_value_vnd
    fee_vnd := fee_vnd
    rate := toFloat rate
    exempt := exempt }

/-- Result record of `pit_transfer_tax_vnd`. -/
structure PitResult where
  tax_base_vnd : ℚ
  pit_vnd : ℚ
  rate : ℚ
  exempt : Bool
deriving DecidableEq, Repr

/-- Embeds `pit_transfer_tax_vnd` from `src/utils/tax.py`:
`base = max(float(price), 0) * 1e9`, `pit = 0 if exempt else base * float(rate)`. -/
def pit_transfer_tax_vnd (transfer_price_billion_vnd : PyVal)
    (rate : PyVal := .num (2 / 100)) (exempt : Bool := false) : PitResult :=
  let base_vnd := pmax (toFloat transfer_price_billion_vnd) 0 * 1000000000
  let pit_vnd := if exempt then 0 else base_vnd * toFloat rate
  { tax_base_vnd := base_vnd
    pit_vnd := pit_vnd
    rate := toFloat rate
    exempt := exempt }

/-- Result record of `non_agri_land_tax_vnd`: clamped inputs, the three
segment areas, the three rates, the post-relief bracket taxes and total
(`tax_vnd` dict), the pre-relief bracket taxes and total
(`tax_vnd_before_relief` dict), and the applied relief. -/
structure NonAgriResult where
  area_m2 : ℚ
  quota_m2 : ℚ
  gov_price_mil_m2 : ℚ
  within_quota_m2 : ℚ
  over_quota_to_3x_m2 : ℚ
  over_3x_quota_m2 : ℚ
  r1 : ℚ
  r2 : ℚ
  r3 : ℚ
  tax_within_quota : ℚ
  tax_over_quota_to_3x : ℚ
  tax_over_3x_quota : ℚ
  tax_total : ℚ
  before_within_quota : ℚ
  before_over_quota_to_3x : ℚ
  before_over_3x_quota : ℚ
  before_total : ℚ
  relief : ReliefType
deriving DecidableEq, Repr

/-- Embeds `non_agri_land_tax_vnd` from `src/utils/tax.py`: inputs floored
at `0`; segment areas `a1 = min(area, quota)`, `a2 = min(max(area - quota, 0),
2*quota)`, `a3 = max(area - 3*quota, 0)` when `quota > 0`, else `a1 = area`,
`a2 = a3 = 0`; bracket taxes `a_i * gov * 1e6 * r_i` with rates
`0.0003, 0.0007, 0.0015`; relief applied to copies of the bracket taxes. -/
def non_agri_land_tax_vnd (area_m2 gov_price_mil_m2 : PyVal)
    (quota_m2 : PyVal := .num 160) (relief : ReliefType := .none) : NonAgriResult :=
  let area := pmax (toFloat area_m2) 0
  let gov := pmax (toFloat gov_price_mil_m2) 0
  let quota := pmax (toFloat quota_m2) 0
  let a1 := if quota > 0 then pmin area quota else area
  let a2 := if quota > 0 then pmin (pmax (area - quota) 0) (2 * quota) else 0
  let a3 := if quota > 0 then pmax (area - 3 * quota) 0 else 0
  let r1 : ℚ := 3 / 10000
  let r2 : ℚ := 7 / 10000
  let r3 : ℚ := 15 / 10000
  let tax1 := a1 * gov * 1000000 * r1
  let tax2 := a2 * gov * 1000000 * r2
  let tax3 := a3 * gov * 1000000 * r3
  let total_before_relief := tax1 + tax2 + tax3
  let tax1_after :=
    match relief with
    | .exempt_within_quota => 0
    | .reduce50_within_quota => tax1 * (1 / 2)
    | .exempt_all => 0
    | .reduce50_all => tax1 * (1 / 2)
    | .none => tax1
  let tax2_after :=
    match relief with
    | .exempt_all => 0
    | .reduce50_all => tax2 * (1 / 2)
    | _ => tax2
  let tax3_after :=
    match relief with
    | .exempt_all => 0
    | .reduce50_all => tax3 * (1 / 2)
    | _ => tax3
  { area_m2 := area
    quota_m2 := quota
    gov_price_mil_m2 := gov
    within_quota_m2 := a1
    over_quota_to_3x_m2 := a2
    over_3x_quota_m2 := a3
    r1 := r1
    r2 := r2
    r3 := r3
    tax_within_quota := tax1_after
    tax_over_quota_to_3x := tax2_after
    tax_over_3x_quota := tax3_after
    tax_total := tax1_after + tax2_after + tax3_after
    before_within_quota := tax1
    before_over_quota_to_3x := tax2
    before_over_3x_quota := tax3
    before_total := total_before_relief
    relief := relief }

/-!
## Text signal extraction (`src/utils/scoring.py`, planning risk)

Each regex in the source pattern lists is a sequence of literal syllables
joined by `\s*`; every syllable starts with a non-whitespace character, so
`re.search` semantics coincide with: some suffix of the text starts with
the first syllable, and after each syllable the following whitespace run is
skipped before the next syllable must begin.
-/

/-- Skip a (possibly empty) whitespace run: the `\s*` between syllables. -/
def dropWS (s : List Char) : List Char := s.dropWhile (fun c => c.isWhitespace)

/-- Match a syllable sequence at the start of `s`, skipping whitespace
between syllables (`tok₁\s*tok₂\s*...` anchored at the head). -/
def matchToks : List (List Char) → List Char → Bool
  | [], _ => true
  | tok :: rest, s => tok.isPrefixOf s && matchToks rest (dropWS (List.drop tok.length s))

/-- Models `re.search`: try the anchored match at every suffix of the text. -/
def containsMatch (toks : List (List Char)) : List Char → Bool
  | [] => matchToks toks []
  | c :: rest => matchToks toks (c :: rest) || containsMatch toks rest

/-- Models `any(re.search(p, t) for p in pats)` for syllable patterns. -/
def anyPat (pats : List (List String)) (t : List Char) : Bool :=
  pats.any (fun p => containsMatch (p.map String.toList) t)

/-- Embeds `_to_text` from `src/utils/scoring.py` on strings: lower-casing
(ASCII-exact; identity on the non-ASCII letters used by the pattern lists). -/
def toText (s : String) : List Char := s.data.map Char.toLower

/-- The list `PLANNING_KEYWORDS` from `src/utils/scoring.py`. -/
def PLANNING_KEYWORDS : List (List String) :=
  [["quy", "hoạch"], ["quy", "hoach"],
   ["lộ", "giới"], ["lo", "gioi"],
   ["tranh", "chấp"], ["tranh", "chap"],
   ["giải", "tỏa"], ["giai", "toa"],
   ["treo"]]

/-- The list `PLANNING_SAFE_PATTERNS` from `src/utils/scoring.py`. -/
def PLANNING_SAFE_PATTERNS : List (List String) :=
  [["không", "dính", "quy", "hoạch"], ["khong", "dinh", "quy", "hoach"],
   ["không", "nằm", "trong", "quy", "hoạch"], ["khong", "nam", "trong", "quy", "hoach"],
   ["không", "quy", "hoạch"], ["khong", "quy", "hoach"],
   ["không", "lộ", "giới"], ["khong", "lo", "gioi"],
   ["không", "tranh", "chấp"], ["khong", "tranh", "chap"],
   ["không", "bị", "lộ", "giới"], ["khong", "bi", "lo", "gioi"],
   ["không", "bị", "quy", "hoạch"], ["khong", "bi", "quy", "hoach"],
   ["có", "giấy", "xác", "nhận", "quy", "hoạch"],
   ["co", "giay", "xac", "nhan", "quy", "hoach"],
   ["quy", "hoạch", "ổn", "định"], ["quy", "hoach", "on", "dinh"]]

/-- The list `PLANNING_RISK_PATTERNS` from `src/utils/scoring.py`. -/
def PLANNING_RISK_PATTERNS : List (List String) :=
  [["dính", "quy", "hoạch"], ["dinh", "quy", "hoach"],
   ["nằm", "trong", "quy", "hoạch"], ["nam", "trong", "quy", "hoach"],
   ["bị", "quy", "hoạch"], ["bi", "quy", "hoach"],
   ["quy", "hoạch", "treo"], ["quy", "hoach", "treo"],
   ["đang", "tranh", "chấp"], ["dang", "tranh", "chap"],
   ["tranh", "chấp"], ["tranh", "chap"],
   ["lộ", "giới"], ["lo", "gioi"],
   ["giải", "tỏa"], ["giai", "toa"]]

/-- Embeds `planning_risk_score` from `src/utils/scoring.py`: `0.5` when no
planning keyword occurs, else `0.0` on a safe-pattern match, else `1.0` on a
red-flag-pattern match, else `0.5`. -/
def planning_risk_score (listing_text : String) : ℚ :=
  let t := toText listing_text
  if ¬ anyPat PLANNING_KEYWORDS t then 1 / 2
  else if anyPat PLANNING_SAFE_PATTERNS t then 0
  else if anyPat PLANNING_RISK_PATTERNS t then 1
  else 1 / 2

/-!
## Quantiles and risk levels (`src/utils/scoring.py`, `compute_risk_score`)

`Series.quantile(q)` (default linear interpolation) is modelled on the list
of non-missing values: with `s` the sorted values and `n = len(s)`, the
quantile is `s[i] + (pos - i) * (s[i+1] - s[i])` where `pos = q * (n - 1)`
and `i = floor(pos)`; an empty series gives `NaN` (`none`).
-/

/-- Models `Series.quantile(q)` with linear interpolation over the present values;
`none` on an empty series. -/
def quantile (xs : List ℚ) (q : ℚ) : Option ℚ :=
  let s := xs.insertionSort (· ≤ ·)
  if s.isEmpty then none
  else
    let n := s.length
    let pos := q * ((n : ℚ) - 1)
    let i := (Int.floor pos).toNat
    let lo := s.getD i 0
    let hi := s.getD (min (i + 1) (n - 1)) 0
    some (lo + (pos - (i : ℚ)) * (hi - lo))

/-- Float comparison `v <= q` where `q` may be `NaN` (`none`): a comparison
against `NaN` is `False`. -/
def leOpt (v : ℚ) (q : Option ℚ) : Bool :=
  match q with
  | some a => decide (v ≤ a)
  | none => false

/-- Embeds `_level` from `compute_risk_score` in `src/utils/scoring.py`:
`"N/A"` for a non-finite score, `"Low"` for score ≤ q33, `"Medium"` for
score ≤ q67, else `"High"`. -/
def level_of (q33 q67 : Option ℚ) (s : Option ℚ) : String :=
  match s with
  | none => "N/A"
  | some v =>
    if leOpt v q33 then "Low"
    else if leOpt v q67 then "Medium"
    else "High"

/-- The `Risk Level` column: levels of a score column against the 1/3 and
2/3 quantiles of that same column (missing scores skipped by `quantile`). -/
def risk_levels (scores : List (Option ℚ)) : List String :=
  let finite := scores.filterMap id
  let q33 := quantile finite (1 / 3)
  let q67 := quantile finite (2 / 3)
  scores.map (level_of q33 q67)

/-- The four component columns of one row (`S_legal`, `S_fake`, `S_price`,
`S_plan`); `none` is a missing (`NaN`) component. -/
structure CompRow where
  s_legal : Option ℚ
  s_fake : Option ℚ
  s_price : Option ℚ
  s_plan : Option ℚ
deriving DecidableEq, Repr

/-- A weight per component column, as produced by `critic_weights` or the
equal-weight branch. -/
structure Weights where
  w_legal : ℚ
  w_fake : ℚ
  w_price : ℚ
  w_plan : ℚ
deriving DecidableEq, Repr

/-- Models `X.fillna(0.5)`: the scoring-time neutral substitution for a missing
component. -/
def fill_neutral (x : Option ℚ) : ℚ := x.getD (1 / 2)

/-- One row's `Risk Score`: the weighted sum over the four components after
neutral substitution (`sum(weights[c] * X[c] for c in cols)`). -/
def row_score (w : Weights) (r : CompRow) : ℚ :=
  w.w_legal * fill_neutral r.s_legal + w.w_fake * fill_neutral r.s_fake +
    w.w_price * fill_neutral r.s_price + w.w_plan * fill_neutral r.s_plan

/-- One output row of `compute_risk_score`: the (unmodified) component
columns plus the two added columns `Risk Score` and `Risk Level`. -/
structure ScoredRow where
  components : CompRow
  score : ℚ
  level : String
deriving DecidableEq, Repr

/-- Embeds the scoring phase of `compute_risk_score` from
`src/utils/scoring.py` given the weight vector: per-row weighted score with
neutral substitution, then levels against the dataset quantiles of the new
score column. The component columns are carried through unchanged. -/
def compute_risk_score (w : Weights) (rows : List CompRow) : List ScoredRow :=
  let scores := rows.map (fun r => row_score w r)
  let q33 := quantile scores (1 / 3)
  let q67 := quantile scores (2 / 3)
  rows.map (fun r =>
    { components := r
      score := row_score w r
      level := level_of q33 q67 (some (row_score w r)) })

/-!
## Ratio normalization and the price-discrepancy columns

`math.log`/`np.isfinite` force the real number model here: a float that is
`NaN`/`±inf`/absent is `none`, a finite float is `some x : Option ℝ`.
-/

/-- Embeds `normalize_log_ratio` from `src/utils/scoring.py`: `NaN` for a
missing, non-finite or non-positive ratio; otherwise
`np.clip(log(max(ratio, 1e-9)) / log(cap), 0, 1)`. -/
noncomputable def normalize_log_ratio (ratio : Option ℝ) (cap : ℝ := 10) : Option ℝ :=
  match ratio with
  | none => none
  | some r =>
    if r ≤ 0 then none
    else some (min 1 (max 0 (Real.log (max r (1 / 1000000000)) / Real.log cap)))

/-- Embeds the `ListingGap` column of `add_risk_components`:
`unit / gov.replace(0, np.nan)` — an exactly-zero or missing denominator
(or a missing numerator) gives `NaN`, any other denominator divides. -/
noncomputable def listing_gap (unit gov : Option ℝ) : Option ℝ :=
  match unit, gov with
  | some u, some g => if g = 0 then none else some (u / g)
  | _, _ => none

/-- Embeds the `S_price` column of `add_risk_components`:
`ratio.apply(lambda r: normalize_log_ratio(r, cap))`. -/
noncomputable def s_price (unit gov : Option ℝ) (cap : ℝ := 10) : Option ℝ :=
  normalize_log_ratio (listing_gap unit gov) cap

/-!
## CRITIC weights (`src/utils/scoring.py`, `critic_weights`)

The dataset restricted to the selected `m` columns is a list of rows
`Fin m → Option ℝ` (`none` models `NaN` and `±inf`, both of which the
source turns into `NaN` before `dropna`). Complete-case filtering, the
population standard deviation (`ddof=0`), the Pearson correlation matrix
with `fillna(0.0)`, the informational content
`C_j = std_j * Σ_k (1 - corr_jk)` and the two equal-weight fallbacks
follow the source line by line.
-/

/-- Models `X.replace([inf, -inf], nan).dropna(how="any")`: keep exactly the rows
whose `m` entries are all present. -/
def completeRows (m : ℕ) (rows : List (Fin m → Option ℝ)) : List (Fin m → ℝ) :=
  rows.filterMap (fun r =>
    if h : ∀ j, (r j).isSome then some (fun j => (r j).get (h j)) else none)

/-- Mean of column `j` over the complete-case rows. -/
noncomputable def colMean (X : List (Fin m → ℝ)) (j : Fin m) : ℝ :=
  (∑ i : Fin X.length, X.get i j) / X.length

/-- Centred cross moment `Σ_i (x_ij - mean_j) * (x_ik - mean_k)` of columns
`j` and `k` (the shared numerator of covariance and correlation). -/
noncomputable def colSq (X : List (Fin m → ℝ)) (j k : Fin m) : ℝ :=
  ∑ i : Fin X.length, (X.get i j - colMean X j) * (X.get i k - colMean X k)

/-- Models `X.std(ddof=0)`: population standard deviation of column `j`. -/
noncomputable def colStd (X : List (Fin m → ℝ)) (j : Fin m) : ℝ :=
  Real.sqrt (colSq X j j / X.length)

/-- Models `X.corr().fillna(0.0)`: Pearson correlation of columns `j`, `k`, with
the undefined case (a constant column) sent to `0`. -/
noncomputable def colCorr (X : List (Fin m → ℝ)) (j k : Fin m) : ℝ :=
  if colSq X j j = 0 ∨ colSq X k k = 0 then 0
  else colSq X j k / (Real.sqrt (colSq X j j) * Real.sqrt (colSq X k k))

/-- Models `C[c] = stds[c] * (1.0 - corr[c]).sum()`: informational content of
column `j`. -/
noncomputable def criticC (X : List (Fin m → ℝ)) (j : Fin m) : ℝ :=
  colStd X j * ∑ k : Fin m, (1 - colCorr X j k)

/-- Embeds `critic_weights` from `src/utils/scoring.py`: equal weights when
the complete-case set is empty or the total informational content is ≤ 0,
otherwise `w_j = C_j / Σ C`. -/
noncomputable def critic_weights (m : ℕ) (rows : List (Fin m → Option ℝ)) : Fin m → ℝ :=
  let X := completeRows m rows
  if X.isEmpty then fun _ => 1 / m
  else
    let total := ∑ j : Fin m, criticC X j
    if total ≤ 0 then fun _ => 1 / m
    else fun j => criticC X j / total

/-!
## Theorems
-/

/-- Splitting an amount into the three progressive segments loses nothing:
for a clamped area and a positive quota the segments partition the area. -/
theorem segment_sum (area quota : ℚ) (hq : 0 < quota) :
    min area quota + min (max (area - quota) 0) (2 * quota) +
      max (area - 3 * quota) 0 = area := by
  rcases le_total area quota with h1 | h1 <;>
    rcases le_total area (3 * quota) with h2 | h2 <;>
      simp [min_def, max_def] <;> split_ifs <;> linarith

/-- C1. `non_agri_land_tax_vnd` computes the segment areas
`a1 = min(area, quota)`, `a2 = clamp(area - quota, 0, 2*quota)`,
`a3 = max(area - 3*quota, 0)` when the quota is positive, puts the whole
(clamped) area into bracket 1 when the quota is ≤ 0, taxes each segment at
the fixed rates 0.03%, 0.07%, 0.15% of `segment_area * gov_price * 1e6`,
and reports a pre-relief total equal to the sum of the three pre-relief
bracket taxes. Inputs are floored at 0 (`toFloat q ≤ 0` clamps to quota 0,
which takes the degenerate branch). -/
theorem non_agri_segments_rates_total (a g q : PyVal) (relief : ReliefType) :
    (0 < toFloat q →
      (non_agri_land_tax_vnd a g q relief).within_quota_m2 =
        min (max (toFloat a) 0) (toFloat q) ∧
      (non_agri_land_tax_vnd a g q relief).over_quota_to_3x_m2 =
        min (max (max (toFloat a) 0 - toFloat q) 0) (2 * toFloat q) ∧
      (non_agri_land_tax_vnd a g q relief).over_3x_quota_m2 =
        max (max (toFloat a) 0 - 3 * toFloat q) 0) ∧
    (toFloat q ≤ 0 →
      (non_agri_land_tax_vnd a g q relief).within_quota_m2 = max (toFloat a) 0 ∧
      (non_agri_land_tax_vnd a g q relief).over_quota_to_3x_m2 = 0 ∧
      (non_agri_land_tax_vnd a g q relief).over_3x_quota_m2 = 0) ∧
    (non_agri_land_tax_vnd a g q relief).before_within_quota =
      (non_agri_land_tax_vnd a g q relief).within_quota_m2 *
        max (toFloat g) 0 * 1000000 * (3 / 10000) ∧
    (non_agri_land_tax_vnd a g q relief).before_over_quota_to_3x =
      (non_agri_land_tax_vnd a g q relief).over_quota_to_3x_m2 *
        max (toFloat g) 0 * 1000000 * (7 / 10000) ∧
    (non_agri_land_tax_vnd a g q relief).before_over_3x_quota =
      (non_agri_land_tax_vnd a g q relief).over_3x_quota_m2 *
        max (toFloat g) 0 * 1000000 * (15 / 10000) ∧
    (non_agri_land_tax_vnd a g q relief).before_total =
      (non_agri_land_tax_vnd a g q relief).before_within_quota +
        (non_agri_land_tax_vnd a g q relief).before_over_quota_to_3x +
        (non_agri_land_tax_vnd a g q relief).before_over_3x_quota := by
  simp only [non_agri_land_tax_vnd, pmin_eq_min, pmax_eq_max]
  refine ⟨fun hq => ?_, fun hq => ?_, ?_, ?_, ?_, ?_⟩
  · have hmax : max (toFloat q) 0 = toFloat q := max_eq_left hq.le
    simp only [hmax, if_pos hq]
    refine ⟨?_, ?_, ?_⟩ <;> (first | rfl | trivial)
  · have hmax : max (toFloat q) 0 = 0 := max_eq_right hq
    have hneg : ¬ ((0:ℚ) < 0) := lt_irrefl 0
    simp only [hmax, if_neg hneg]
    refine ⟨?_, ?_, ?_⟩ <;> (first | rfl | trivial)
  · trivial
  · trivial
  · trivial
  · trivial

/-- Witness for the C1 theorem at `area=500, quota=160, gov=100`:
`a1=160, a2=320, a3=20`. -/
theorem non_agri_segments_rates_total_witness :
    0 < toFloat (.num 160) ∧
    (non_agri_land_tax_vnd (.num 500) (.num 100) (.num 160) .none).within_quota_m2 =
      min (max (toFloat (.num 500)) 0) (toFloat (.num 160)) := by
  have h := (non_agri_segments_rates_total (.num 500) (.num 100) (.num 160) .none).1
  have hq : 0 < toFloat (.num 160) := by norm_num [toFloat]
  exact ⟨hq, (h hq).1⟩

/-- C10. The three returned segment areas are each nonnegative and sum
exactly to the clamped area `max(area, 0)`, in both the positive-quota and
the degenerate zero-quota branch. -/
theorem non_agri_segment_partition (a g q : PyVal) (relief : ReliefType) :
    0 ≤ (non_agri_land_tax_vnd a g q relief).within_quota_m2 ∧
    0 ≤ (non_agri_land_tax_vnd a g q relief).over_quota_to_3x_m2 ∧
    0 ≤ (non_agri_land_tax_vnd a g q relief).over_3x_quota_m2 ∧
    (non_agri_land_tax_vnd a g q relief).within_quota_m2 +
        (non_agri_land_tax_vnd a g q relief).over_quota_to_3x_m2 +
        (non_agri_land_tax_vnd a g q relief).over_3x_quota_m2 =
      max (toFloat a) 0 := by
  simp only [non_agri_land_tax_vnd, pmin_eq_min, pmax_eq_max]
  by_cases hq : 0 < max (toFloat q) 0
  · refine ⟨?_, ?_, ?_, ?_⟩
    · simp [hq, le_min (le_max_right _ _) hq.le]
    · simp [hq, le_min (le_max_right _ _) (by positivity : (0:ℚ) ≤ 2 * max (toFloat q) 0)]
    · simp [hq, le_max_right]
    · simp only [if_pos hq]
      exact segment_sum _ _ hq
  · refine ⟨?_, ?_, ?_, ?_⟩ <;> simp [hq, le_max_right]

/-- C8. Relief is a post-computation overlay: the pre-relief bracket
amounts and pre-relief total are identical for every relief choice to
those with `relief="none"`, and `exempt_within_quota` zeroes exactly the
post-relief bracket-1 amount, leaving post-relief brackets 2 and 3 at
their pre-relief values. -/
theorem non_agri_relief_frame (a g q : PyVal) (relief : ReliefType) :
    ((non_agri_land_tax_vnd a g q relief).before_within_quota =
        (non_agri_land_tax_vnd a g q .none).before_within_quota ∧
      (non_agri_land_tax_vnd a g q relief).before_over_quota_to_3x =
        (non_agri_land_tax_vnd a g q .none).before_over_quota_to_3x ∧
      (non_agri_land_tax_vnd a g q relief).before_over_3x_quota =
        (non_agri_land_tax_vnd a g q .none).before_over_3x_quota ∧
      (non_agri_land_tax_vnd a g q relief).before_total =
        (non_agri_land_tax_vnd a g q .none).before_total) ∧
    (relief = .exempt_within_quota →
      (non_agri_land_tax_vnd a g q relief).tax_within_quota = 0 ∧
      (non_agri_land_tax_vnd a g q relief).tax_over_quota_to_3x =
        (non_agri_land_tax_vnd a g q relief).before_over_quota_to_3x ∧
      (non_agri_land_tax_vnd a g q relief).tax_over_3x_quota =
        (non_agri_land_tax_vnd a g q relief).before_over_3x_quota) := by
  cases relief <;> simp [non_agri_land_tax_vnd]

/-- Witness for the C8 theorem at `area=500, gov=100, quota=160`,
`relief=exempt_within_quota`. -/
theorem non_agri_relief_frame_witness :
    (non_agri_land_tax_vnd (.num 500) (.num 100) (.num 160)
        .exempt_within_quota).tax_within_quota = 0 :=
  ((non_agri_relief_frame (.num 500) (.num 100) (.num 160)
    .exempt_within_quota).2 rfl).1

/-- C2 counterexample. The claim says every numeric input, the rate
included, is clamped to ≥ 0 before use; but `registration_fee_land_vnd`
multiplies by the raw converted rate, so a negative rate produces a
negative fee — impossible had the rate been floored at 0. -/
theorem registration_fee_negative_rate :
    (registration_fee_land_vnd (.num 1) (.num 1) (.num (-1)) false).fee_vnd = -1000000 ∧
    (registration_fee_land_vnd (.num 1) (.num 1) (.num (-1)) false).fee_vnd < 0 := by
  norm_num [registration_fee_land_vnd, toFloat, pmax]

/-- C2 (amended). The three tax functions are total (defined for every
input, numeric or not): non-numeric inputs are coerced to 0 by `_to_float`
(each function agrees with itself on the coerced numeric inputs), and
area, price and quota are clamped to ≥ 0 before use — but the `rate`
parameter of `registration_fee_land_vnd` and `pit_transfer_tax_vnd` is
converted without clamping, so its sign passes through to the output. -/
theorem tax_functions_total_and_clamped (a g r p q : PyVal) (e : Bool)
    (relief : ReliefType) :
    toFloat .nonNum = 0 ∧
    registration_fee_land_vnd a g r e =
      registration_fee_land_vnd (.num (toFloat a)) (.num (toFloat g)) (.num (toFloat r)) e ∧
    pit_transfer_tax_vnd p r e =
      pit_transfer_tax_vnd (.num (toFloat p)) (.num (toFloat r)) e ∧
    non_agri_land_tax_vnd a g q relief =
      non_agri_land_tax_vnd (.num (toFloat a)) (.num (toFloat g)) (.num (toFloat q)) relief ∧
    0 ≤ (registration_fee_land_vnd a g r e).base_value_vnd ∧
    (registration_fee_land_vnd a g r e).fee_vnd =
      (if e then 0 else (registration_fee_land_vnd a g r e).base_value_vnd * toFloat r) ∧
    0 ≤ (pit_transfer_tax_vnd p r e).tax_base_vnd ∧
    (pit_transfer_tax_vnd p r e).pit_vnd =
      (if e then 0 else (pit_transfer_tax_vnd p r e).tax_base_vnd * toFloat r) ∧
    0 ≤ (non_agri_land_tax_vnd a g q relief).area_m2 ∧
    0 ≤ (non_agri_land_tax_vnd a g q relief).gov_price_mil_m2 ∧
    0 ≤ (non_agri_land_tax_vnd a g q relief).quota_m2 := by
  refine ⟨rfl, rfl, rfl, rfl, ?_, rfl, ?_, rfl, ?_, ?_, ?_⟩
  · simp only [registration_fee_land_vnd, pmax_eq_max]
    have h1 : (0:ℚ) ≤ max (toFloat a) 0 := le_max_right _ _
    have h2 : (0:ℚ) ≤ max (toFloat g) 0 := le_max_right _ _
    positivity
  · simp only [pit_transfer_tax_vnd, pmax_eq_max]
    have h1 : (0:ℚ) ≤ max (toFloat p) 0 := le_max_right _ _
    positivity
  · simp [non_agri_land_tax_vnd, pmax_eq_max, le_max_right]
  · simp [non_agri_land_tax_vnd, pmax_eq_max, le_max_right]
  · simp [non_agri_land_tax_vnd, pmax_eq_max, le_max_right]

/-- For a positive ratio the `max(ratio, 1e-9)` guard inside
`normalize_log_ratio` is invisible after clamping: the result is exactly
`clamp(log(ratio)/log(cap), 0, 1)`. -/
theorem normalize_log_ratio_pos_eq (cap : ℝ) (hcap : 1 < cap) (r : ℝ) (hr : 0 < r) :
    normalize_log_ratio (some r) cap =
      some (min 1 (max 0 (Real.log r / Real.log cap))) := by
  have hlogcap : 0 < Real.log cap := Real.log_pos hcap
  simp only [normalize_log_ratio]
  rw [if_neg (not_le.mpr hr)]
  by_cases h9 : (1 / 1000000000 : ℝ) ≤ r
  · rw [max_eq_left h9]
  · have hrlt : r < 1 / 1000000000 := not_le.mp h9
    rw [max_eq_right hrlt.le]
    have h1 : Real.log (1 / 1000000000 : ℝ) < 0 := Real.log_neg (by norm_num) (by norm_num)
    have h2 : Real.log r < 0 := Real.log_neg hr (hrlt.trans (by norm_num))
    have e1 : max 0 (Real.log (1 / 1000000000 : ℝ) / Real.log cap) = 0 :=
      max_eq_left (div_nonpos_iff.mpr (Or.inr ⟨h1.le, hlogcap.le⟩))
    have e2 : max 0 (Real.log r / Real.log cap) = 0 :=
      max_eq_left (div_nonpos_iff.mpr (Or.inr ⟨h2.le, hlogcap.le⟩))
    rw [e1, e2]

/-- C7. The contract of `normalize_log_ratio` for any cap > 1: a missing or
non-positive ratio maps to `NaN` (never 0); a positive ratio maps to
`clamp(log(ratio)/log(cap), 0, 1)`, which lies in [0,1], is 0 for every
ratio ≤ 1, is 1 at `ratio = cap` and beyond, and is monotone non-decreasing
in the ratio. -/
theorem normalize_log_ratio_contract (cap : ℝ) (hcap : 1 < cap) :
    normalize_log_ratio none cap = none ∧
    (∀ r : ℝ, r ≤ 0 → normalize_log_ratio (some r) cap = none) ∧
    (∀ r : ℝ, 0 < r → normalize_log_ratio (some r) cap =
        some (min 1 (max 0 (Real.log r / Real.log cap)))) ∧
    (∀ r : ℝ, 0 < r → ∃ v : ℝ, normalize_log_ratio (some r) cap = some v ∧
        0 ≤ v ∧ v ≤ 1) ∧
    (∀ r : ℝ, 0 < r → r ≤ 1 → normalize_log_ratio (some r) cap = some 0) ∧
    (∀ r : ℝ, cap ≤ r → normalize_log_ratio (some r) cap = some 1) ∧
    (∀ r₁ r₂ v₁ v₂ : ℝ, 0 < r₁ → r₁ ≤ r₂ →
        normalize_log_ratio (some r₁) cap = some v₁ →
        normalize_log_ratio (some r₂) cap = some v₂ → v₁ ≤ v₂) := by
  have hlogcap : 0 < Real.log cap := Real.log_pos hcap
  have hcap0 : (0:ℝ) < cap := lt_trans one_pos hcap
  refine ⟨rfl, ?_, normalize_log_ratio_pos_eq cap hcap, ?_, ?_, ?_, ?_⟩
  · intro r hr
    simp only [normalize_log_ratio]
    rw [if_pos hr]
  · intro r hr
    refine ⟨min 1 (max 0 (Real.log r / Real.log cap)),
      normalize_log_ratio_pos_eq cap hcap r hr, ?_, min_le_left _ _⟩
    exact le_min zero_le_one (le_max_left _ _)
  · intro r hr hr1
    rw [normalize_log_ratio_pos_eq cap hcap r hr]
    have hlog : Real.log r ≤ 0 := Real.log_nonpos hr.le hr1
    rw [max_eq_left (div_nonpos_iff.mpr (Or.inr ⟨hlog, hlogcap.le⟩)),
      min_eq_right (le_refl (0:ℝ) |>.trans zero_le_one)]
  · intro r hr
    have hr0 : 0 < r := lt_of_lt_of_le hcap0 hr
    rw [normalize_log_ratio_pos_eq cap hcap r hr0]
    have hlog : Real.log cap ≤ Real.log r := Real.log_le_log hcap0 hr
    have hq : 1 ≤ Real.log r / Real.log cap := (one_le_div hlogcap).mpr hlog
    rw [max_eq_right (le_trans zero_le_one hq), min_eq_left hq]
  · intro r₁ r₂ v₁ v₂ h1 h12 e1 e2
    have h2 : 0 < r₂ := lt_of_lt_of_le h1 h12
    rw [normalize_log_ratio_pos_eq cap hcap r₁ h1] at e1
    rw [normalize_log_ratio_pos_eq cap hcap r₂ h2] at e2
    have hlog : Real.log r₁ ≤ Real.log r₂ := Real.log_le_log h1 h12
    have hdiv : Real.log r₁ / Real.log cap ≤ Real.log r₂ / Real.log cap :=
      (div_le_div_iff_of_pos_right hlogcap).mpr hlog
    have := min_le_min (le_refl (1:ℝ)) (max_le_max (le_refl (0:ℝ)) hdiv)
    rw [Option.some_inj.mp e1.symm] at *
    exact (Option.some_inj.mp e1.symm) ▸ (Option.some_inj.mp e2.symm) ▸ this

/-- C3 counterexample. The claim says a government price ≤ 0 makes both
`ListingGap` and `S_price` undefined; but `gov.replace(0, np.nan)` only
replaces an exact zero, so a negative government price yields a finite
`ListingGap` (here `1 / (-1) = -1`), and with a negative unit price as
well (`-10 / -5 = 2`) even `S_price` is finite. -/
theorem listing_gap_negative_gov_counterexample :
    ((-1:ℝ) ≤ 0 ∧ listing_gap (some 1) (some (-1)) = some (-1)) ∧
    ((-5:ℝ) ≤ 0 ∧ ∃ v : ℝ, s_price (some (-10)) (some (-5)) 10 = some v) := by
  have hgap : listing_gap (some (-10:ℝ)) (some (-5)) = some 2 := by
    simp only [listing_gap]
    rw [if_neg (by norm_num : ¬ ((-5:ℝ) = 0))]
    norm_num
  refine ⟨⟨by norm_num, ?_⟩, by norm_num, ?_⟩
  · simp only [listing_gap]
    rw [if_neg (by norm_num : ¬ ((-1:ℝ) = 0))]
    norm_num
  · unfold s_price
    rw [hgap]
    rw [normalize_log_ratio_pos_eq 10 (by norm_num) 2 (by norm_num)]
    exact ⟨_, rfl⟩

/-- C3 (amended). `add_risk_components` treats only an exactly-zero
government price (or a missing input) as a missing denominator: then both
`ListingGap` and `S_price` are `NaN`. A negative government price passes
through the `replace(0, nan)` guard, so `ListingGap` is the finite ratio
`unit / gov`; `S_price` is still `NaN` whenever that ratio is missing or
≤ 0 (in particular for `unit ≥ 0, gov < 0`), but is finite when the ratio
is positive (both inputs negative). -/
theorem listing_gap_s_price_zero_denominator (u g : Option ℝ) (cap : ℝ) :
    listing_gap u (some 0) = none ∧
    s_price u (some 0) cap = none ∧
    listing_gap u none = none ∧
    listing_gap none g = none ∧
    (∀ uv gv : ℝ, gv ≠ 0 → listing_gap (some uv) (some gv) = some (uv / gv)) ∧
    (listing_gap u g = none → s_price u g cap = none) ∧
    (∀ r : ℝ, listing_gap u g = some r → r ≤ 0 → s_price u g cap = none) ∧
    (1 < cap → ∀ uv gv : ℝ, uv < 0 → gv < 0 →
      ∃ v : ℝ, s_price (some uv) (some gv) cap = some v) := by
  refine ⟨?_, ?_, ?_, rfl, ?_, ?_, ?_, ?_⟩
  · cases u <;> simp [listing_gap]
  · cases u <;> simp [s_price, listing_gap, normalize_log_ratio]
  · cases u <;> simp [listing_gap]
  · intro uv gv hgv
    simp only [listing_gap]
    rw [if_neg hgv]
  · intro h
    unfold s_price
    rw [h]
    rfl
  · intro r hgap hr
    unfold s_price
    rw [hgap]
    simp only [normalize_log_ratio]
    rw [if_pos hr]
  · intro hcap uv gv hu hg
    have hgv : gv ≠ 0 := ne_of_lt hg
    have hgap : listing_gap (some uv) (some gv) = some (uv / gv) := by
      simp only [listing_gap]
      rw [if_neg hgv]
    have hpos : 0 < uv / gv := div_pos_of_neg_of_neg hu hg
    unfold s_price
    rw [hgap, normalize_log_ratio_pos_eq cap hcap _ hpos]
    exact ⟨_, rfl⟩

/-- Witness for the C7 theorem at `cap = 10`: `normalize(1) = 0` and
`normalize(10) = 1`. -/
theorem normalize_log_ratio_contract_witness :
    (1:ℝ) < 10 ∧ normalize_log_ratio (some 1) 10 = some 0 ∧
      normalize_log_ratio (some 10) 10 = some 1 := by
  have h := normalize_log_ratio_contract 10 (by norm_num)
  exact ⟨by norm_num, h.2.2.2.2.1 1 (by norm_num) (by norm_num),
    h.2.2.2.2.2.1 10 (by norm_num)⟩

/-- Witness for the C3 amended theorem at `unit = 1, gov = 0, cap = 10`
and the conditional branches at concrete values. -/
theorem listing_gap_s_price_zero_denominator_witness :
    listing_gap (some 1) (some 0) = none ∧ s_price (some 1) (some 0) 10 = none ∧
      listing_gap (some 1) (some (-2:ℝ)) = some (-(1/2)) := by
  have h := listing_gap_s_price_zero_denominator (some 1) (some (-2:ℝ)) 10
  refine ⟨h.1, (listing_gap_s_price_zero_denominator (some 1) (some 0) 10).2.1, ?_⟩
  have := h.2.2.2.2.1 1 (-2) (by norm_num)
  rw [this]
  norm_num

/-- C6. `planning_risk_score` first tests whether any planning/dispute
keyword occurs at all and returns 0.5 if none does; with a keyword
present it returns 0.0 on a safe/negated phrasing (checked before the
red-flag patterns), 1.0 on a red-flag phrasing, and 0.5 otherwise. The
text "không tranh chấp" matches both a safe pattern and a red-flag
pattern and resolves to 0.0 by the fixed precedence. -/
theorem planning_risk_score_precedence (t : String) :
    (anyPat PLANNING_KEYWORDS (toText t) = false → planning_risk_score t = 1 / 2) ∧
    (anyPat PLANNING_KEYWORDS (toText t) = true →
      anyPat PLANNING_SAFE_PATTERNS (toText t) = true → planning_risk_score t = 0) ∧
    (anyPat PLANNING_KEYWORDS (toText t) = true →
      anyPat PLANNING_SAFE_PATTERNS (toText t) = false →
      anyPat PLANNING_RISK_PATTERNS (toText t) = true → planning_risk_score t = 1) ∧
    (anyPat PLANNING_KEYWORDS (toText t) = true →
      anyPat PLANNING_SAFE_PATTERNS (toText t) = false →
      anyPat PLANNING_RISK_PATTERNS (toText t) = false → planning_risk_score t = 1 / 2) ∧
    planning_risk_score "không tranh chấp" = 0 ∧
    anyPat PLANNING_SAFE_PATTERNS (toText "không tranh chấp") = true ∧
    anyPat PLANNING_RISK_PATTERNS (toText "không tranh chấp") = true := by
  refine ⟨?_, ?_, ?_, ?_, by decide, by decide, by decide⟩
  · intro h
    simp [planning_risk_score, h]
  · intro h1 h2
    simp [planning_risk_score, h1, h2]
  · intro h1 h2 h3
    simp [planning_risk_score, h1, h2, h3]
  · intro h1 h2 h3
    simp [planning_risk_score, h1, h2, h3]

/-- Witness for the C6 theorem at the spec's example texts. -/
theorem planning_risk_score_precedence_witness :
    planning_risk_score "không dính quy hoạch" = 0 ∧
    planning_risk_score "giá tốt" = 1 / 2 := by
  constructor
  · exact (planning_risk_score_precedence "không dính quy hoạch").2.1
      (by decide) (by decide)
  · exact (planning_risk_score_precedence "giá tốt").1 (by decide)

/-- C5. Risk levels come from the 1/3 and 2/3 quantiles of the current
score column: a non-finite score gives "N/A"; `score ≤ Q33` gives "Low"
(ties at the boundary go down via `≤`); `Q33 < score ≤ Q67` gives
"Medium"; above Q67 gives "High". For the nine evenly spaced scores
0.1..0.9 the bottom three are Low, the middle three Medium, the top
three High. -/
theorem risk_level_tertile_rule :
    (∀ scores : List (Option ℚ), risk_levels scores =
      scores.map (level_of (quantile (scores.filterMap id) (1 / 3))
        (quantile (scores.filterMap id) (2 / 3)))) ∧
    (∀ q33 q67 : Option ℚ, level_of q33 q67 none = "N/A") ∧
    (∀ a b v : ℚ, v ≤ a → level_of (some a) (some b) (some v) = "Low") ∧
    (∀ a b v : ℚ, a < v → v ≤ b → level_of (some a) (some b) (some v) = "Medium") ∧
    (∀ a b v : ℚ, a < v → b < v → level_of (some a) (some b) (some v) = "High") ∧
    risk_levels [some (1/10), some (2/10), some (3/10), some (4/10), some (5/10),
        some (6/10), some (7/10), some (8/10), some (9/10)] =
      ["Low", "Low", "Low", "Medium", "Medium", "Medium", "High", "High", "High"] := by
  have hsort : ([1/10, 2/10, 3/10, 4/10, 5/10, 6/10, 7/10, 8/10, 9/10] :
      List ℚ).insertionSort (· ≤ ·) =
      [1/10, 2/10, 3/10, 4/10, 5/10, 6/10, 7/10, 8/10, 9/10] := by
    refine List.Sorted.insertionSort_eq ?_
    norm_num [List.sorted_cons]
  have hq13 : quantile [1/10, 2/10, 3/10, 4/10, 5/10, 6/10, 7/10, 8/10, 9/10] (1 / 3) =
      some (11/30) := by
    have hfloor : ⌊(1/3 : ℚ) * ((([1/10, 2/10, 3/10, 4/10, 5/10, 6/10, 7/10, 8/10, 9/10] :
        List ℚ).length : ℚ) - 1)⌋ = 2 := by norm_num
    simp only [quantile, hsort, hfloor]
    have htoNat : ((2:ℤ).toNat) = 2 := rfl
    have hmin : min (2 + 1) (([1/10, 2/10, 3/10, 4/10, 5/10, 6/10, 7/10, 8/10, 9/10] :
        List ℚ).length - 1) = 3 := rfl
    have hget2 : ([1/10, 2/10, 3/10, 4/10, 5/10, 6/10, 7/10, 8/10, 9/10] :
        List ℚ).getD 2 0 = 3/10 := rfl
    have hget3 : ([1/10, 2/10, 3/10, 4/10, 5/10, 6/10, 7/10, 8/10, 9/10] :
        List ℚ).getD 3 0 = 4/10 := rfl
    have hempty : ([1/10, 2/10, 3/10, 4/10, 5/10, 6/10, 7/10, 8/10, 9/10] :
        List ℚ).isEmpty = false := rfl
    simp only [htoNat, hmin, hget2, hget3, hempty, Bool.false_eq_true, if_false]
    norm_num
  have hq23 : quantile [1/10, 2/10, 3/10, 4/10, 5/10, 6/10, 7/10, 8/10, 9/10] (2 / 3) =
      some (19/30) := by
    have hfloor : ⌊(2/3 : ℚ) * ((([1/10, 2/10, 3/10, 4/10, 5/10, 6/10, 7/10, 8/10, 9/10] :
        List ℚ).length : ℚ) - 1)⌋ = 5 := by norm_num
    simp only [quantile, hsort, hfloor]
    have htoNat : ((5:ℤ).toNat) = 5 := rfl
    have hmin : min (5 + 1) (([1/10, 2/10, 3/10, 4/10, 5/10, 6/10, 7/10, 8/10, 9/10] :
        List ℚ).length - 1) = 6 := rfl
    have hget5 : ([1/10, 2/10, 3/10, 4/10, 5/10, 6/10, 7/10, 8/10, 9/10] :
        List ℚ).getD 5 0 = 6/10 := rfl
    have hget6 : ([1/10, 2/10, 3/10, 4/10, 5/10, 6/10, 7/10, 8/10, 9/10] :
        List ℚ).getD 6 0 = 7/10 := rfl
    have hempty : ([1/10, 2/10, 3/10, 4/10, 5/10, 6/10, 7/10, 8/10, 9/10] :
        List ℚ).isEmpty = false := rfl
    simp only [htoNat, hmin, hget5, hget6, hempty, Bool.false_eq_true, if_false]
    norm_num
  refine ⟨fun scores => rfl, fun q33 q67 => rfl, ?_, ?_, ?_, ?_⟩
  · intro a b v h
    simp [level_of, leOpt, h]
  · intro a b v h1 h2
    simp [level_of, leOpt, h1.not_le, h2]
  · intro a b v h1 h2
    simp [level_of, leOpt, h1.not_le, h2.not_le]
  · have hfm : ([some (1/10), some (2/10), some (3/10), some (4/10), some (5/10),
        some (6/10), some (7/10), some (8/10), some (9/10)] :
        List (Option ℚ)).filterMap id =
        [1/10, 2/10, 3/10, 4/10, 5/10, 6/10, 7/10, 8/10, 9/10] := rfl
    simp only [risk_levels, hfm, hq13, hq23, List.map_cons, List.map_nil, level_of, leOpt]
    norm_num

/-- Witness for the C5 theorem: checks at concrete quantile bounds and a
missing score. -/
theorem risk_level_tertile_rule_witness :
    level_of (some (1/2)) (some (2/3)) (some (1/3)) = "Low" ∧
    level_of (some (1/2)) (some (2/3)) none = "N/A" := by
  refine ⟨risk_level_tertile_rule.2.2.1 (1/2) (2/3) (1/3) (by norm_num), ?_⟩
  exact risk_level_tertile_rule.2.1 (some (1/2)) (some (2/3))

/-- C9. `compute_risk_score` substitutes the neutral 0.5 for a missing
component only inside the weighted sum that makes `Risk Score`; the
component columns carried into the output are exactly the input rows, so
a missing (`NaN`) component is still missing after scoring. -/
theorem compute_risk_score_neutral_frame (w : Weights) (rows : List CompRow) :
    (compute_risk_score w rows).map ScoredRow.components = rows ∧
    (compute_risk_score w rows).map ScoredRow.score = rows.map (row_score w) ∧
    (∀ r : CompRow, row_score w r =
      w.w_legal * fill_neutral r.s_legal + w.w_fake * fill_neutral r.s_fake +
        w.w_price * fill_neutral r.s_price + w.w_plan * fill_neutral r.s_plan) ∧
    fill_neutral none = 1 / 2 ∧
    (∀ x : ℚ, fill_neutral (some x) = x) := by
  refine ⟨?_, ?_, fun r => rfl, rfl, fun x => rfl⟩
  · show (rows.map _).map ScoredRow.components = rows
    rw [List.map_map]
    exact List.map_id rows
  · show (rows.map _).map ScoredRow.score = rows.map (row_score w)
    rw [List.map_map]
    rfl

/-- A centred second moment is a sum of squares, hence nonnegative. -/
theorem colSq_self_nonneg (X : List (Fin m → ℝ)) (j : Fin m) : 0 ≤ colSq X j j :=
  Finset.sum_nonneg fun _ _ => mul_self_nonneg _

/-- Cauchy–Schwarz for the centred moments: the cross moment is at most
the product of the root self moments. -/
theorem colSq_le_sqrt_mul_sqrt (X : List (Fin m → ℝ)) (j k : Fin m) :
    colSq X j k ≤ Real.sqrt (colSq X j j) * Real.sqrt (colSq X k k) := by
  have h := Real.sum_mul_le_sqrt_mul_sqrt (Finset.univ : Finset (Fin X.length))
    (fun i => X.get i j - colMean X j) (fun i => X.get i k - colMean X k)
  simpa [colSq, pow_two] using h

/-- Pearson correlation (with the `fillna(0)` convention) never exceeds 1. -/
theorem colCorr_le_one (X : List (Fin m → ℝ)) (j k : Fin m) : colCorr X j k ≤ 1 := by
  unfold colCorr
  split_ifs with h
  · exact zero_le_one
  · push_neg at h
    have p1 : 0 < colSq X j j := lt_of_le_of_ne (colSq_self_nonneg X j) (Ne.symm h.1)
    have p2 : 0 < colSq X k k := lt_of_le_of_ne (colSq_self_nonneg X k) (Ne.symm h.2)
    have hd : 0 < Real.sqrt (colSq X j j) * Real.sqrt (colSq X k k) :=
      mul_pos (Real.sqrt_pos.mpr p1) (Real.sqrt_pos.mpr p2)
    rw [div_le_one hd]
    exact colSq_le_sqrt_mul_sqrt X j k

/-- The informational content `C_j = std_j * Σ_k (1 - corr_jk)` is
nonnegative. -/
theorem criticC_nonneg (X : List (Fin m → ℝ)) (j : Fin m) : 0 ≤ criticC X j :=
  mul_nonneg (Real.sqrt_nonneg _)
    (Finset.sum_nonneg fun k _ => sub_nonneg.mpr (colCorr_le_one X j k))

/-- The equal-weight fallback `1/m` summed over the `m` columns is 1. -/
theorem equal_weights_sum (m : ℕ) (hm : 0 < m) :
    ∑ _j : Fin m, (1 : ℝ) / m = 1 := by
  rw [Finset.sum_const, Finset.card_univ, Fintype.card_fin, nsmul_eq_mul]
  rw [mul_one_div, div_self (Nat.cast_ne_zero.mpr hm.ne')]

/-- The function `critic_weights` on an empty complete-case set: equal weights. -/
theorem critic_weights_of_empty (m : ℕ) (rows : List (Fin m → Option ℝ))
    (h : (completeRows m rows).isEmpty = true) :
    critic_weights m rows = fun _ => (1 : ℝ) / m := by
  simp only [critic_weights, h, if_true]

/-- The function `critic_weights` with nonpositive total informational content: equal
weights. -/
theorem critic_weights_of_nonpos (m : ℕ) (rows : List (Fin m → Option ℝ))
    (h : (completeRows m rows).isEmpty = false)
    (h2 : ∑ j : Fin m, criticC (completeRows m rows) j ≤ 0) :
    critic_weights m rows = fun _ => (1 : ℝ) / m := by
  simp only [critic_weights, h, Bool.false_eq_true, if_false, if_pos h2]

/-- The function `critic_weights` in the main branch: normalized informational
contents. -/
theorem critic_weights_of_pos (m : ℕ) (rows : List (Fin m → Option ℝ))
    (h : (completeRows m rows).isEmpty = false)
    (h2 : ¬ ∑ j : Fin m, criticC (completeRows m rows) j ≤ 0) :
    critic_weights m rows = fun j => criticC (completeRows m rows) j /
      ∑ i : Fin m, criticC (completeRows m rows) i := by
  simp only [critic_weights, h, Bool.false_eq_true, if_false, if_neg h2]

/-- C4. `critic_weights` returns weights that are all nonnegative and sum
exactly to 1 (exactly, in the real model); on a degenerate dataset —
empty complete-case set, or every column of zero variance — it returns
the equal weights `1/m`; and it is a deterministic function of the data
and column order. -/
theorem critic_weights_spec (m : ℕ) (hm : 0 < m) (rows : List (Fin m → Option ℝ)) :
    (∀ j, 0 ≤ critic_weights m rows j) ∧
    (∑ j : Fin m, critic_weights m rows j = 1) ∧
    (completeRows m rows = [] → critic_weights m rows = fun _ => (1 : ℝ) / m) ∧
    ((∀ j, colSq (completeRows m rows) j j = 0) →
      critic_weights m rows = fun _ => (1 : ℝ) / m) ∧
    (∀ rows₂, rows = rows₂ → critic_weights m rows = critic_weights m rows₂) := by
  have hinv : (0:ℝ) ≤ 1 / m := by positivity
  have hmain : (∀ j, 0 ≤ critic_weights m rows j) ∧
      (∑ j : Fin m, critic_weights m rows j = 1) := by
    cases hEmpty : (completeRows m rows).isEmpty with
    | true =>
      rw [critic_weights_of_empty m rows hEmpty]
      exact ⟨fun _ => hinv, equal_weights_sum m hm⟩
    | false =>
      by_cases hTot : ∑ j : Fin m, criticC (completeRows m rows) j ≤ 0
      · rw [critic_weights_of_nonpos m rows hEmpty hTot]
        exact ⟨fun _ => hinv, equal_weights_sum m hm⟩
      · rw [critic_weights_of_pos m rows hEmpty hTot]
        have hpos : 0 < ∑ j : Fin m, criticC (completeRows m rows) j := not_le.mp hTot
        refine ⟨fun j => div_nonneg (criticC_nonneg _ j) hpos.le, ?_⟩
        rw [← Finset.sum_div, div_self hpos.ne']
  refine ⟨hmain.1, hmain.2, ?_, ?_, fun rows₂ h => by rw [h]⟩
  · intro h
    exact critic_weights_of_empty m rows (by rw [h]; rfl)
  · intro h
    cases hEmpty : (completeRows m rows).isEmpty with
    | true => exact critic_weights_of_empty m rows hEmpty
    | false =>
      refine critic_weights_of_nonpos m rows hEmpty ?_
      have hC : ∀ j, criticC (completeRows m rows) j = 0 := by
        intro j
        unfold criticC colStd
        rw [h j, zero_div, Real.sqrt_zero, zero_mul]
      rw [Finset.sum_congr rfl fun j _ => hC j, Finset.sum_const, smul_zero]

/-- Witness for the C4 theorem at `m = 2` on a two-row dataset. -/
theorem critic_weights_spec_witness :
    0 < 2 ∧ ∑ j : Fin 2, critic_weights 2
      [fun _ => some 0, fun _ => some 1] j = 1 :=
  ⟨by norm_num, (critic_weights_spec 2 (by norm_num)
    [fun _ => some 0, fun _ => some 1]).2.1⟩

end KLTN
